import Mathlib

/-!
Verification of tlser (a utility that keeps a Kubernetes TLS secret in sync
with a desired certificate specification) against its design specification.

The source file `tlser.go` is embedded shallowly:

* Byte slices are `List Nat`; Go strings are Lean `String`.
* External collaborators (the file system, `pem.Decode`, the Kubernetes
  client, `time.ParseDuration`, the crypto routines and the `syncer.sync`
  cycle that live outside this file) are passed in as explicit function
  parameters, so every definition below is the control flow of `tlser.go`
  itself over those abstract collaborators.
* Side effects (log output, store operations, sleeps) are recorded in an
  explicit trace of `Effect`s; `log.Fatalf` and normal return become the
  `Outcome` of a run.  The unbounded polling loop is modelled with fuel.
-/

namespace Tlser

/-- Go byte slices, as used for file contents and DER bytes. -/
abbrev Bytes := List Nat

/-- A PEM block as returned by `pem.Decode` from package `encoding/pem`;
only its `Bytes` field (the DER payload) is consumed by `readPem`. -/
structure PemBlock where
  bytes : Bytes
deriving Repr, DecidableEq

/-- The two error shapes produced by `readPem` (tlser.go lines 146-158):
a read failure, formatted from the template "unable to read %v: %w" —
where the source passes the package-level `cacrt` flag variable as the
`%v` argument, not its `file` parameter — and a decode failure naming the
raw file contents. -/
inductive PemError where
  | readError (arg : String) (cause : String)
  | decodeError (contents : Bytes)
deriving Repr, DecidableEq

/-- tlser.go lines 146-158.

```
func readPem(file string) ([]byte, error) {
    bytes, err := ioutil.ReadFile(file)
    if err != nil {
        return nil, fmt.Errorf("unable to read %v: %w", cacrt, err)
    }
    decoded, _ := pem.Decode(bytes)
    if decoded == nil {
        return nil, fmt.Errorf("unable to decode: %v", bytes)
    }
    return decoded.Bytes, nil
}
```

`readFile` stands for `ioutil.ReadFile` and `decode` for `pem.Decode`
(returning the first PEM block found, or `none` when the input holds no
valid PEM block; the discarded second result of `pem.Decode` is the rest
of the input).  `cacrtFlag` is the package-level `cacrt` flag variable
interpolated into the read-error message by the source. -/
def readPem (cacrtFlag : String) (readFile : String → Except String Bytes)
    (decode : Bytes → Option PemBlock) (file : String) :
    Except PemError Bytes :=
  match readFile file with
  | .error err => .error (.readError cacrtFlag err)
  | .ok bytes =>
    match decode bytes with
    | none => .error (.decodeError bytes)
    | some decoded => .ok decoded.bytes

/-- The slice of a Kubernetes `corev1.Secret` that `setSecret` consumes:
its identifying metadata.  The data blobs and labels play no role in the
dispatch logic of tlser.go lines 182-190 and are left abstract. -/
structure Secret where
  name : String
  nspace : String
deriving Repr, DecidableEq

/-- A store operation issued against the Kubernetes secrets client. -/
inductive StoreOp where
  | create (s : Secret)
  | update (s : Secret)
deriving Repr, DecidableEq

/-- tlser.go lines 182-190.

```
func (a k8sAdapter) setSecret(secret *secret, update bool) (err error) {
    secretI := a.clientset.CoreV1().Secrets(secret.Namespace)
    if update {
        _, err = secretI.Update(context.Background(), secret, metav1.UpdateOptions{})
    } else {
        _, err = secretI.Create(context.Background(), secret, metav1.CreateOptions{})
    }
    return
}
```

`updateOp` and `createOp` are the client's Update and Create calls,
returning the error of the call (`none` = success; the returned secret
object is discarded by the source).  The result records the store
operations performed, in order, together with the returned error. -/
def setSecret (updateOp createOp : Secret → Option String)
    (secret : Secret) (update : Bool) : List StoreOp × Option String :=
  if update then ([StoreOp.update secret], updateOp secret)
  else ([StoreOp.create secret], createOp secret)

/-- `strings.Split(s, ",")` from the Go standard library, on a character
list: splits around every comma, keeping empty substrings and performing
no trimming. -/
def splitComma : List Char → List (List Char)
  | [] => [[]]
  | c :: rest =>
    if c = ',' then [] :: splitComma rest
    else
      match splitComma rest with
      | [] => [[c]]
      | h :: t => (c :: h) :: t

/-- tlser.go lines 56-62.

```
var ipStrings, dnsStrings []string
if len(*ip) > 0 {
    ipStrings = strings.Split(*ip, ",")
}
if len(*dns) > 0 {
    dnsStrings = strings.Split(*dns, ",")
}
```

A nil Go slice is the empty list. -/
def sanList (s : List Char) : List (List Char) :=
  if s = [] then [] else splitComma s

/-- `sanList` on Lean strings. -/
def sanListS (s : String) : List String :=
  (sanList s.data).map fun l => String.mk l

/-- Joining with a comma separator: the inverse direction of
`splitComma`, used to state that the split is exact. -/
def joinComma : List (List Char) → List Char
  | [] => []
  | [x] => x
  | x :: y :: t => x ++ ',' :: joinComma (y :: t)

lemma splitComma_ne_nil (s : List Char) : splitComma s ≠ [] := by
  cases s with
  | nil => simp [splitComma]
  | cons c rest =>
    simp only [splitComma]
    by_cases hc : c = ','
    · simp [hc]
    · simp only [if_neg hc]
      cases h : splitComma rest with
      | nil => simp
      | cons a t => simp

lemma joinComma_splitComma (s : List Char) :
    joinComma (splitComma s) = s := by
  induction s with
  | nil => simp [splitComma, joinComma]
  | cons c rest ih =>
    by_cases hc : c = ','
    · subst hc
      simp only [splitComma, if_pos rfl]
      cases h : splitComma rest with
      | nil => exact absurd h (splitComma_ne_nil rest)
      | cons a t =>
        rw [h] at ih
        simp [joinComma, ih]
    · simp only [splitComma, if_neg hc]
      cases h : splitComma rest with
      | nil => exact absurd h (splitComma_ne_nil rest)
      | cons a t =>
        rw [h] at ih
        cases t with
        | nil => simp_all [joinComma]
        | cons b t' => simp_all [joinComma]

lemma splitComma_length (s : List Char) :
    (splitComma s).length = s.count ',' + 1 := by
  induction s with
  | nil => simp [splitComma]
  | cons c rest ih =>
    by_cases hc : c = ','
    · subst hc
      simp [splitComma, ih, List.count_cons]
    · simp only [splitComma, if_neg hc]
      cases h : splitComma rest with
      | nil => exact absurd h (splitComma_ne_nil rest)
      | cons a t =>
        rw [h] at ih
        simp only [List.length_cons] at ih ⊢
        rw [List.count_cons]
        simp [ih, hc]

lemma splitComma_no_comma (s : List Char) :
    ∀ l ∈ splitComma s, ',' ∉ l := by
  induction s with
  | nil => simp [splitComma]
  | cons c rest ih =>
    by_cases hc : c = ','
    · subst hc
      simp only [splitComma, if_pos rfl]
      intro l hl
      rcases List.mem_cons.mp hl with h | h
      · subst h; simp
      · exact ih l h
    · simp only [splitComma, if_neg hc]
      cases h : splitComma rest with
      | nil => exact absurd h (splitComma_ne_nil rest)
      | cons a t =>
        intro l hl
        rcases List.mem_cons.mp hl with h' | h'
        · subst h'
          intro hmem
          rcases List.mem_cons.mp hmem with h'' | h''
          · exact hc h''.symm
          · exact ih a (h ▸ List.mem_cons_self a t) h''
        · exact ih l (h ▸ List.mem_cons_of_mem a h')

/-- The command-line flags of tlser.go lines 22-34, after `flag.Parse`:
`cacert` and `cakey` are CA material paths, `subject` the certificate
Subject Common Name, `expire` the expiration in days, `dns` and `ip` the
comma-separated SAN lists, `name` and `nspace` the Kubernetes secret
identifier, `labels` the repeatable key=value labels, and `interval` the
polling interval string. -/
structure Flags where
  cacert : String
  cakey : String
  subject : String
  expire : Int
  dns : String
  ip : String
  name : String
  nspace : String
  labels : List (String × String)
  interval : String
deriving Repr, DecidableEq

/-- The external collaborators `main` calls, abstracted by their results.
Opaque handles (a parsed CA signer, an RSA key, a rest config, a client
set) are `Nat`s: `main` only threads them through.

* `parseDuration` — `time.ParseDuration`, duration in nanoseconds;
* `readCa` — `readCa(*cacrt, *cakey)` (tlser.go lines 160-172, whose body
  calls `readPem` twice and then `parseCertPair`);
* `genKey` — `rsa.GenerateKey(rand.Reader, 2048)`;
* `genCert` — `generateSignedCert(subject, ips, dnss, expire, key, signer)`
  returning PEM certificate and key strings;
* `getConfig` / `newForConfig` — construction of the Kubernetes client;
* `readNsFile` — `ioutil.ReadFile` of the service-account namespace file;
* `syncRes` — the error of the k-th `sync.sync()` call (`none` = success). -/
structure Env where
  parseDuration : String → Except String Nat
  readCa : String → String → Except String Nat
  genKey : Except String Nat
  genCert : String → List String → List String → Int → Nat → Nat →
    Except String (String × String)
  getConfig : Except String Nat
  newForConfig : Nat → Except String Nat
  readNsFile : Except String String
  syncRes : Nat → Option String

/-- The externally visible actions of a run of `main`, in program order. -/
inductive Effect where
  | logE (msg : String)
  | readCaE (crt key : String)
  | genKeyE
  | genCertE (subject : String) (ips dnss : List String) (expire : Int)
  | printOutE (cert key : String)
  | getConfigE
  | newClientE
  | readNsFileE
  | syncE (n : Nat)
  | sleepE (d : Nat)
deriving Repr, DecidableEq

/-- How a run of `main` ends: `fatal msg` is `log.Fatalf` (message then
process exit with status 1), `exited` is a normal return from `main`, and
`outOfFuel` marks a run of the infinite polling loop truncated by the
fuel bound of the model. -/
inductive Outcome where
  | fatal (msg : String)
  | exited
  | outOfFuel
deriving Repr, DecidableEq

/-- tlser.go lines 104-114.

```
namespace := *k8sNs
if namespace == "" {
    if bytes, err := ioutil.ReadFile(namespaceFile); err != nil {
        log.Printf("Unable to read %s, using namespace 'default'", namespaceFile)
    } else {
        namespace = string(bytes)
    }
}
if namespace == "" {
    namespace = "default"
}
```

`k8sNs` is the `-namespace` flag value and `readNsFile` the result of
reading `/var/run/secrets/kubernetes.io/serviceaccount/namespace`. -/
def resolveNamespace (k8sNs : String) (readNsFile : Except String String) :
    String :=
  let ns1 := k8sNs
  let ns2 :=
    if ns1 = "" then
      match readNsFile with
      | .error _ => ns1
      | .ok bytes => bytes
    else ns1
  if ns2 = "" then "default" else ns2

/-- tlser.go lines 138-143, the polling loop:

```
for {
    if err := sync.sync(); err != nil {
        log.Fatalf("Unable to sync certs: %v", err)
    }
    time.Sleep(syncInterval)
}
```

`sync k` is the error of the k-th `sync.sync()` call counting from `k0`,
`d` the sleep duration; `fuel` bounds the number of iterations modelled. -/
def loop (sync : Nat → Option String) (d : Nat) :
    Nat → Nat → List Effect × Outcome
  | _, 0 => ([], Outcome.outOfFuel)
  | k, fuel + 1 =>
    match sync k with
    | some e => ([Effect.syncE k], Outcome.fatal ("Unable to sync certs: " ++ e))
    | none =>
      let r := loop sync d (k + 1) fuel
      (Effect.syncE k :: Effect.sleepE d :: r.1, r.2)

/-- tlser.go lines 38-144, the body of `main` after `flag.Parse`, as a
function of the parsed flags and the abstract collaborators, returning
the trace of effects and the outcome.  Logging calls that carry no
decision (`log.SetFlags`, the monitoring banner, the namespace warning)
are omitted from the trace except for the two `log.Print` lines that mark
which branch was taken. -/
def mainRun (f : Flags) (env : Env) (fuel : Nat) : List Effect × Outcome :=
  if f.subject.length = 0 then
    ([], Outcome.fatal "Missing required -subject parameter")
  else
    match (if f.interval.length = 0 then Except.ok 0
           else env.parseDuration f.interval) with
    | .error e =>
      ([], Outcome.fatal ("Parameter -interval was not a valid duration: " ++ e))
    | .ok syncInterval =>
      let ipStrings := sanListS f.ip
      let dnsStrings := sanListS f.dns
      if f.name.length = 0 then
        let t0 := [Effect.logE "No secret name provided, generating cert on stdout"]
        match env.readCa f.cacert f.cakey with
        | .error e =>
          (t0 ++ [Effect.readCaE f.cacert f.cakey],
           Outcome.fatal ("Failed to read CA files: " ++ e))
        | .ok signer =>
          match env.genKey with
          | .error e =>
            (t0 ++ [Effect.readCaE f.cacert f.cakey, Effect.genKeyE],
             Outcome.fatal ("Unable to generate private key: " ++ e))
          | .ok rsaKey =>
            match env.genCert f.subject ipStrings dnsStrings f.expire rsaKey signer with
            | .error e =>
              (t0 ++ [Effect.readCaE f.cacert f.cakey, Effect.genKeyE,
                      Effect.genCertE f.subject ipStrings dnsStrings f.expire],
               Outcome.fatal ("Unable to generate certificate: " ++ e))
            | .ok (cert, key) =>
              (t0 ++ [Effect.readCaE f.cacert f.cakey, Effect.genKeyE,
                      Effect.genCertE f.subject ipStrings dnsStrings f.expire,
                      Effect.printOutE cert key],
               Outcome.exited)
      else
        match env.getConfig with
        | .error e =>
          ([Effect.getConfigE],
           Outcome.fatal ("Unable to get Kubernetes config: " ++ e))
        | .ok cfg =>
          match env.newForConfig cfg with
          | .error e =>
            ([Effect.getConfigE, Effect.newClientE],
             Outcome.fatal ("Unable to initialize Kubernetes client: " ++ e))
          | .ok _clientset =>
            let nsEff := if f.nspace = "" then [Effect.readNsFileE] else []
            let nspace := resolveNamespace f.nspace env.readNsFile
            let pre := Effect.getConfigE :: Effect.newClientE :: nsEff ++
              [Effect.logE ("Syncing certificate for " ++ f.subject ++
                " to secret " ++ f.name ++ " in namespace " ++ nspace)]
            if syncInterval = 0 then
              match env.syncRes 0 with
              | some e =>
                (pre ++ [Effect.syncE 0],
                 Outcome.fatal ("Unable to sync certs: " ++ e))
              | none => (pre ++ [Effect.syncE 0], Outcome.exited)
            else
              let r := loop env.syncRes syncInterval 0 fuel
              (pre ++ r.1, r.2)

/-- Number of reconciliation cycles started in a trace. -/
def countSync (t : List Effect) : Nat :=
  t.countP fun e => match e with | Effect.syncE _ => true | _ => false

/-- True of the effects that touch the credential store side of the
program: building the Kubernetes client, reading the in-cluster
namespace, and running a reconciliation cycle (each cycle performs store
operations). -/
def touchesStore : Effect → Bool
  | Effect.getConfigE => true
  | Effect.newClientE => true
  | Effect.readNsFileE => true
  | Effect.syncE _ => true
  | Effect.sleepE _ => true
  | _ => false

/-- The trace produced by the polling loop when the cycles at indices
`k, k+1, ..., k+m-1` succeed and the cycle at index `k+m` fails: each
successful cycle is followed by exactly one sleep of the configured
interval, and the failing cycle ends the trace. -/
def failTrace (d : Nat) : Nat → Nat → List Effect
  | k, 0 => [Effect.syncE k]
  | k, m + 1 => Effect.syncE k :: Effect.sleepE d :: failTrace d (k + 1) m

/-- tlser.go lines 138-143 again, instrumented with a clock: the k-th
`sync.sync()` call runs over the half-open real-time window
`[t, t + dur k)` (its duration `dur k` is arbitrary), and the
`time.Sleep(syncInterval)` that follows a successful cycle advances the
clock by exactly `d`.  Each trace entry is `(cycle index, start time,
completion time)`. -/
def loopT (dur : Nat → Nat) (sync : Nat → Option String) (d : Nat) :
    Nat → Nat → Nat → List (Nat × Nat × Nat) × Outcome
  | _, _, 0 => ([], Outcome.outOfFuel)
  | k, t, fuel + 1 =>
    match sync k with
    | some e =>
      ([(k, t, t + dur k)], Outcome.fatal ("Unable to sync certs: " ++ e))
    | none =>
      let r := loopT dur sync d (k + 1) (t + dur k + d) fuel
      ((k, t, t + dur k) :: r.1, r.2)

/-- The ideal schedule of the polling loop: starting at clock `t` with
cycle index `k`, the next `m` cycles with their start and completion
times, each cycle starting exactly `d` after the previous one
completed. -/
def schedule (dur : Nat → Nat) (d : Nat) :
    Nat → Nat → Nat → List (Nat × Nat × Nat)
  | _, _, 0 => []
  | k, t, m + 1 => (k, t, t + dur k) :: schedule dur d (k + 1) (t + dur k + d) m

lemma countSync_failTrace (d : Nat) :
    ∀ m k, countSync (failTrace d k m) = m + 1 := by
  intro m
  induction m with
  | zero => intro k; simp [failTrace, countSync]
  | succ m ih =>
    intro k
    simp only [failTrace, countSync, List.countP_cons] at ih ⊢
    simp [ih (k + 1)]

lemma loop_fail_aux (sync : Nat → Option String) (d : Nat) (err : String) :
    ∀ m k fuel, (∀ i, i < m → sync (k + i) = none) → sync (k + m) = some err →
      m < fuel →
      loop sync d k fuel =
        (failTrace d k m, Outcome.fatal ("Unable to sync certs: " ++ err)) := by
  intro m
  induction m with
  | zero =>
    intro k fuel _ hm hf
    cases fuel with
    | zero => omega
    | succ fl =>
      have hk : sync k = some err := by simpa using hm
      simp [loop, hk, failTrace]
  | succ m ih =>
    intro k fuel hpre hm hf
    cases fuel with
    | zero => omega
    | succ fl =>
      have h0 : sync k = none := by simpa using hpre 0 (Nat.succ_pos m)
      have hpre' : ∀ i, i < m → sync (k + 1 + i) = none := by
        intro i hi
        have := hpre (i + 1) (by omega)
        simpa [Nat.add_comm, Nat.add_left_comm, Nat.add_assoc] using this
      have hm' : sync (k + 1 + m) = some err := by
        have : k + 1 + m = k + (m + 1) := by omega
        rw [this]; exact hm
      have := ih (k + 1) fl hpre' hm' (by omega)
      simp [loop, h0, this, failTrace]

lemma loopT_prefix_aux (dur : Nat → Nat) (sync : Nat → Option String)
    (d : Nat) :
    ∀ m k t fuel, (∀ i, i < m → sync (k + i) = none) → m ≤ fuel →
      ∃ rest, (loopT dur sync d k t fuel).1 = schedule dur d k t m ++ rest := by
  intro m
  induction m with
  | zero =>
    intro k t fuel _ _
    exact ⟨(loopT dur sync d k t fuel).1, by simp [schedule]⟩
  | succ m ih =>
    intro k t fuel hpre hf
    cases fuel with
    | zero => omega
    | succ fl =>
      have h0 : sync k = none := by simpa using hpre 0 (Nat.succ_pos m)
      have hpre' : ∀ i, i < m → sync (k + 1 + i) = none := by
        intro i hi
        have := hpre (i + 1) (by omega)
        simpa [Nat.add_comm, Nat.add_left_comm, Nat.add_assoc] using this
      obtain ⟨rest, hrest⟩ :=
        ih (k + 1) (t + dur k + d) fl hpre' (by omega)
      refine ⟨rest, ?_⟩
      simp [loopT, h0, schedule, hrest]

lemma schedule_chain (dur : Nat → Nat) (d : Nat) :
    ∀ j m k t, j + 1 < m →
      ∃ s fin s' fin',
        (schedule dur d k t m).get? j = some (k + j, s, fin) ∧
        (schedule dur d k t m).get? (j + 1) = some (k + j + 1, s', fin') ∧
        fin = s + dur (k + j) ∧ s' = fin + d ∧ fin' = s' + dur (k + j + 1) := by
  intro j
  induction j with
  | zero =>
    intro m k t hm
    match m, hm with
    | m + 2, _ =>
      refine ⟨t, t + dur k, t + dur k + d, t + dur k + d + dur (k + 1),
        ?_, ?_, rfl, rfl, rfl⟩ <;> simp [schedule]
  | succ j ih =>
    intro m k t hm
    match m, hm with
    | m + 1, hm =>
      obtain ⟨s, fin, s', fin', h1, h2, h3, h4, h5⟩ :=
        ih m (k + 1) (t + dur k + d) (by omega)
      have e1 : k + 1 + j = k + (j + 1) := by omega
      have e2 : k + 1 + j + 1 = k + (j + 1) + 1 := by omega
      rw [e1] at h1 h3
      rw [e2] at h2 h5
      exact ⟨s, fin, s', fin', by simpa [schedule] using h1,
        by simpa [schedule] using h2, h3, h4, h5⟩

/-- A concrete environment in which every collaborator succeeds, used to
instantiate the theorems below at concrete inputs. -/
def envDemo : Env where
  parseDuration := fun _ => Except.ok 300000000000
  readCa := fun _ _ => Except.ok 0
  genKey := Except.ok 1
  genCert := fun _ _ _ _ _ _ => Except.ok ("CERTPEM", "KEYPEM")
  getConfig := Except.ok 0
  newForConfig := fun _ => Except.ok 0
  readNsFile := Except.ok "kube-system"
  syncRes := fun _ => none

/-- Claim C2: for every stored artifact and update flag, setSecret invokes
the store's update operation when the flag is true and the create
operation when it is false, never both in one call, and returns exactly
the error produced by the invoked operation. -/
theorem setSecret_dispatch (updateOp createOp : Secret → Option String)
    (s : Secret) (u : Bool) :
    (setSecret updateOp createOp s u).1 =
      [if u then StoreOp.update s else StoreOp.create s] ∧
    (setSecret updateOp createOp s u).2 =
      (if u then updateOp s else createOp s) ∧
    ¬(StoreOp.update s ∈ (setSecret updateOp createOp s u).1 ∧
      StoreOp.create s ∈ (setSecret updateOp createOp s u).1) := by
  cases u <;> simp [setSecret]

/-- Claim C3: readPem returns an error exactly when the file is unreadable
or its contents contain no valid PEM block; when a valid PEM block is
present it returns the DER bytes of the first decoded block. -/
theorem readPem_spec (cacrtFlag : String)
    (readFile : String → Except String Bytes)
    (decode : Bytes → Option PemBlock) (file : String) :
    ((∃ e, readPem cacrtFlag readFile decode file = Except.error e) ↔
      (∃ msg, readFile file = Except.error msg) ∨
      (∃ bs, readFile file = Except.ok bs ∧ decode bs = none)) ∧
    (∀ bs blk, readFile file = Except.ok bs → decode bs = some blk →
      readPem cacrtFlag readFile decode file = Except.ok blk.bytes) := by
  constructor
  · cases h : readFile file with
    | error msg => simp [readPem, h]
    | ok bs =>
      cases hd : decode bs with
      | none => simp [readPem, h, hd]
      | some blk => simp [readPem, h, hd]
  · intro bs blk h hd
    simp [readPem, h, hd]

/-- Instance of readPem_spec at a concrete readable file holding a valid
PEM block. -/
theorem readPem_spec_witness :
    readPem "./ca.pem" (fun _ => Except.ok ([1, 2] : Bytes))
      (fun _ => some ⟨[3, 4]⟩) "f.pem" = Except.ok [3, 4] :=
  (readPem_spec "./ca.pem" (fun _ => Except.ok ([1, 2] : Bytes))
    (fun _ => some ⟨[3, 4]⟩) "f.pem").2 [1, 2] ⟨[3, 4]⟩ rfl rfl

/-- Claim C7, evaluated at a failing input: readPem is asked to read the
CA key file "./ca-key.pem" while the package-level cacrt flag holds its
default "./ca.pem"; the read fails, and the returned error names the
cacrt flag (the source interpolates the global flag variable, not its
file parameter), so the error does not name the path of the file that
could not be read. -/
theorem readPem_wrong_name_in_error :
    readPem "./ca.pem" (fun _ => Except.error "no such file or directory")
      (fun _ => none) "./ca-key.pem" =
      Except.error (PemError.readError "./ca.pem" "no such file or directory") ∧
    "./ca.pem" ≠ "./ca-key.pem" := by
  exact ⟨rfl, by decide⟩

/-- Claim C8: when the subject flag is empty, main fails fatally at once,
with an empty effect trace: no CA loading, no generation, no store
access. -/
theorem mainRun_missing_subject (f : Flags) (env : Env) (fuel : Nat)
    (h : f.subject = "") :
    mainRun f env fuel =
      ([], Outcome.fatal "Missing required -subject parameter") := by
  simp [mainRun, h]

/-- Instance of mainRun_missing_subject at concrete flags. -/
theorem mainRun_missing_subject_witness :
    mainRun ⟨"./ca.pem", "./ca-key.pem", "", 60, "", "", "tls", "", [], ""⟩
      envDemo 5 =
      ([], Outcome.fatal "Missing required -subject parameter") :=
  mainRun_missing_subject _ envDemo 5 rfl

/-- Claim C9: the namespace flag wins when non-empty; an empty flag falls
back to the raw contents of the service-account namespace file when it is
readable and non-empty; an unreadable or empty file yields the literal
"default". -/
theorem resolveNamespace_spec (flag : String) (rf : Except String String) :
    (flag ≠ "" → resolveNamespace flag rf = flag) ∧
    (∀ c, flag = "" → rf = Except.ok c → c ≠ "" →
      resolveNamespace flag rf = c) ∧
    (∀ e, flag = "" → rf = Except.error e →
      resolveNamespace flag rf = "default") ∧
    (flag = "" → rf = Except.ok "" → resolveNamespace flag rf = "default") := by
  refine ⟨fun h => ?_, fun c h1 h2 h3 => ?_, fun e h1 h2 => ?_, fun h1 h2 => ?_⟩
  · simp [resolveNamespace, h]
  · subst h1 h2; simp [resolveNamespace, h3]
  · subst h1 h2; simp [resolveNamespace]
  · subst h1 h2; simp [resolveNamespace]

/-- Instances of resolveNamespace_spec: readable non-empty file, and
unreadable file. -/
theorem resolveNamespace_spec_witness :
    resolveNamespace "" (Except.ok "kube-system") = "kube-system" ∧
    resolveNamespace "" (Except.error "EACCES") = "default" :=
  ⟨(resolveNamespace_spec "" (Except.ok "kube-system")).2.1 "kube-system"
      rfl rfl (by decide),
    (resolveNamespace_spec "" (Except.error "EACCES")).2.2.1 "EACCES" rfl rfl⟩

/-- Claim C10: an empty SAN option string yields the empty list, and a
non-empty one is split on commas exactly: joining the parts with commas
restores the input, the number of parts is the comma count plus one, and
no part contains a comma — so nothing is trimmed and no empty element is
dropped, as the concrete split of "a,,b" shows. -/
theorem sanList_spec :
    sanListS "" = [] ∧
    sanListS "a,,b" = ["a", "", "b"] ∧
    ∀ s : List Char, s ≠ [] →
      joinComma (sanList s) = s ∧
      (sanList s).length = s.count ',' + 1 ∧
      ∀ l ∈ sanList s, ',' ∉ l := by
  refine ⟨rfl, by decide, fun s hs => ?_⟩
  rw [sanList, if_neg hs]
  exact ⟨joinComma_splitComma s, splitComma_length s, splitComma_no_comma s⟩

/-- Instance of sanList_spec on the non-empty input "x,y". -/
theorem sanList_spec_witness :
    joinComma (sanList ("x,y".data)) = "x,y".data ∧
    (sanList ("x,y".data)).length = ("x,y".data).count ',' + 1 :=
  ⟨(sanList_spec.2.2 "x,y".data (by decide)).1,
    (sanList_spec.2.2 "x,y".data (by decide)).2.1⟩

/-- Claim C1: with no secret name configured (and the run reaching that
branch: non-empty subject, interval parsing fine, collaborators
succeeding), main loads the CA signer, generates a key and a signed
certificate, prints certificate and key to standard output and returns
normally; its trace holds no client construction, no namespace lookup and
no store operation. -/
theorem mainRun_no_target (f : Flags) (env : Env) (fuel : Nat)
    (si signer rsaKey : Nat) (cert key : String)
    (hs : f.subject.length ≠ 0)
    (hn : f.name.length = 0)
    (hpd : (if f.interval.length = 0 then Except.ok 0
            else env.parseDuration f.interval) = Except.ok si)
    (hca : env.readCa f.cacert f.cakey = Except.ok signer)
    (hkey : env.genKey = Except.ok rsaKey)
    (hcert : env.genCert f.subject (sanListS f.ip) (sanListS f.dns)
      f.expire rsaKey signer = Except.ok (cert, key)) :
    mainRun f env fuel =
      ([Effect.logE "No secret name provided, generating cert on stdout",
        Effect.readCaE f.cacert f.cakey, Effect.genKeyE,
        Effect.genCertE f.subject (sanListS f.ip) (sanListS f.dns) f.expire,
        Effect.printOutE cert key], Outcome.exited) ∧
    (mainRun f env fuel).1.all (fun e => !touchesStore e) = true := by
  have heq : mainRun f env fuel =
      ([Effect.logE "No secret name provided, generating cert on stdout",
        Effect.readCaE f.cacert f.cakey, Effect.genKeyE,
        Effect.genCertE f.subject (sanListS f.ip) (sanListS f.dns) f.expire,
        Effect.printOutE cert key], Outcome.exited) := by
    rw [mainRun, if_neg hs, hpd]
    simp [if_pos hn, hca, hkey, hcert]
  exact ⟨heq, by rw [heq]; simp [touchesStore]⟩

/-- Concrete flags for the no-target mode: a subject but no secret
name. -/
def flagsNoTarget : Flags :=
  ⟨"./ca.pem", "./ca-key.pem", "svc.example.com", 60, "", "", "", "", [], ""⟩

/-- Instance of mainRun_no_target at concrete flags with every
collaborator succeeding. -/
theorem mainRun_no_target_witness :
    mainRun flagsNoTarget envDemo 5 =
      ([Effect.logE "No secret name provided, generating cert on stdout",
        Effect.readCaE "./ca.pem" "./ca-key.pem", Effect.genKeyE,
        Effect.genCertE "svc.example.com" [] [] 60,
        Effect.printOutE "CERTPEM" "KEYPEM"], Outcome.exited) :=
  (mainRun_no_target flagsNoTarget envDemo 5 0 0 1 "CERTPEM" "KEYPEM"
    (by decide) rfl rfl rfl rfl rfl).1

/-- Claim C4: in polling mode, once a cycle fails the loop terminates
fatally on that failure: if cycles 0..m-1 succeed and cycle m fails, the
loop's trace is exactly the m successful cycles with their sleeps
followed by the failing cycle, the outcome is the fatal sync error, and
exactly m+1 cycles were started — none after the failure. -/
theorem loop_stops_on_error (sync : Nat → Option String) (d m fuel : Nat)
    (err : String)
    (hpre : ∀ i, i < m → sync i = none)
    (hm : sync m = some err)
    (hfuel : m < fuel) :
    loop sync d 0 fuel =
      (failTrace d 0 m, Outcome.fatal ("Unable to sync certs: " ++ err)) ∧
    countSync (failTrace d 0 m) = m + 1 := by
  refine ⟨?_, countSync_failTrace d m 0⟩
  have := loop_fail_aux sync d err m 0 fuel (by simpa using hpre)
    (by simpa using hm) hfuel
  simpa using this

/-- Instance of loop_stops_on_error: cycles 0 and 1 succeed, cycle 2
fails, and the loop stops after exactly three cycles. -/
theorem loop_stops_on_error_witness :
    loop (fun i => if i < 2 then none else some "boom") 7 0 5 =
      (failTrace 7 0 2, Outcome.fatal ("Unable to sync certs: " ++ "boom")) ∧
    countSync (failTrace 7 0 2) = 3 :=
  loop_stops_on_error (fun i => if i < 2 then none else some "boom") 7 2 5
    "boom" (by intro i hi; interval_cases i <;> rfl) rfl (by omega)

/-- Claim C5: in polling mode cycles run strictly sequentially: as long
as cycles succeed, the timed loop's trace follows the ideal schedule, and
in that schedule consecutive entries carry consecutive cycle indices (no
skipping) with the next cycle starting exactly the configured interval
after the previous cycle completed (no jitter, no calendar alignment). -/
theorem loopT_sequential (dur : Nat → Nat) (sync : Nat → Option String)
    (d t0 m fuel : Nat)
    (hpre : ∀ i, i < m → sync i = none)
    (hfuel : m ≤ fuel) :
    (∃ rest, (loopT dur sync d 0 t0 fuel).1 = schedule dur d 0 t0 m ++ rest) ∧
    (∀ j, j + 1 < m → ∃ s fin s' fin',
      (schedule dur d 0 t0 m).get? j = some (j, s, fin) ∧
      (schedule dur d 0 t0 m).get? (j + 1) = some (j + 1, s', fin') ∧
      fin = s + dur j ∧ s' = fin + d ∧ fin' = s' + dur (j + 1)) := by
  constructor
  · exact loopT_prefix_aux dur sync d m 0 t0 fuel (by simpa using hpre) hfuel
  · intro j hj
    have := schedule_chain dur d j m 0 t0 hj
    simpa using this

/-- Instance of loopT_sequential with three successful cycles of varying
durations: the schedule is followed and consecutive starts differ by the
completion time plus the interval. -/
theorem loopT_sequential_witness :
    (∃ rest, (loopT (fun k => k + 3) (fun _ => none) 7 0 100 5).1 =
      schedule (fun k => k + 3) 7 0 100 3 ++ rest) ∧
    (∀ j, j + 1 < 3 → ∃ s fin s' fin',
      (schedule (fun k => k + 3) 7 0 100 3).get? j = some (j, s, fin) ∧
      (schedule (fun k => k + 3) 7 0 100 3).get? (j + 1) =
        some (j + 1, s', fin') ∧
      fin = s + (j + 3) ∧ s' = fin + 7 ∧ fin' = s' + (j + 1 + 3)) :=
  loopT_sequential (fun k => k + 3) (fun _ => none) 7 100 3 5
    (fun _ _ => rfl) (by omega)

/-- Claim C6: with a secret name configured and the interval absent (or
parsed to the zero duration — the only way the loop is skipped), exactly
one reconciliation cycle runs and the program terminates, exiting
normally when the cycle succeeds and fatally with the cycle's error when
it fails. -/
theorem mainRun_one_shot (f : Flags) (env : Env) (fuel : Nat) (cfg cs : Nat)
    (hs : f.subject.length ≠ 0)
    (hn : f.name.length ≠ 0)
    (hpd : (if f.interval.length = 0 then Except.ok 0
            else env.parseDuration f.interval) = Except.ok 0)
    (hcfg : env.getConfig = Except.ok cfg)
    (hcs : env.newForConfig cfg = Except.ok cs) :
    countSync (mainRun f env fuel).1 = 1 ∧
    (env.syncRes 0 = none → (mainRun f env fuel).2 = Outcome.exited) ∧
    (∀ e, env.syncRes 0 = some e →
      (mainRun f env fuel).2 = Outcome.fatal ("Unable to sync certs: " ++ e)) := by
  have hred : mainRun f env fuel =
      (Effect.getConfigE :: Effect.newClientE ::
        (if f.nspace = "" then [Effect.readNsFileE] else []) ++
        [Effect.logE ("Syncing certificate for " ++ f.subject ++
          " to secret " ++ f.name ++ " in namespace " ++
          resolveNamespace f.nspace env.readNsFile)] ++ [Effect.syncE 0],
       match env.syncRes 0 with
       | some e => Outcome.fatal ("Unable to sync certs: " ++ e)
       | none => Outcome.exited) := by
    rw [mainRun, if_neg hs, hpd]
    simp only [if_neg hn, hcfg, hcs]
    cases h0 : env.syncRes 0 <;> simp [h0]
  refine ⟨?_, ?_, ?_⟩
  · rw [hred]
    by_cases hns : f.nspace = "" <;>
      simp [hns, countSync, List.countP_cons, List.countP_append]
  · intro h0; rw [hred]; simp [h0]
  · intro e h0; rw [hred]; simp [h0]

/-- Concrete flags for one-shot mode: subject and secret name set, no
interval. -/
def flagsOneShot : Flags :=
  ⟨"./ca.pem", "./ca-key.pem", "svc.example.com", 60, "", "",
    "tls-secret", "prod", [], ""⟩

/-- Instance of mainRun_one_shot at concrete flags with no interval and a
successful cycle. -/
theorem mainRun_one_shot_witness :
    countSync (mainRun flagsOneShot envDemo 5).1 = 1 ∧
    (mainRun flagsOneShot envDemo 5).2 = Outcome.exited :=
  ⟨(mainRun_one_shot flagsOneShot envDemo 5 0 0 (by decide) (by decide)
      rfl rfl rfl).1,
    (mainRun_one_shot flagsOneShot envDemo 5 0 0 (by decide) (by decide)
      rfl rfl rfl).2.1 rfl⟩

end Tlser
